import Mathlib

/-!
Verification of the progressive image delivery pipeline of the Dronefolio
portfolio application: the server-side thumbnail service
(`server/thumbnailService.ts`) and the client-side progressive display
components (`client/src/components/lazy-image.tsx`,
`image-zoom-modal.tsx`, `virtualized-grid.tsx`), embedded shallowly.
Effectful collaborators (sharp, fetch, the filesystem) appear as explicit
environment parameters; component state machines are embedded as explicit
step functions over their React state variables.
-/

namespace ThumbnailService

/-- Output formats of the `format` option (the TypeScript union
`'jpeg' | 'webp' | 'png'`). -/
inductive ImgFormat
  | jpeg
  | webp
  | png
deriving DecidableEq

/-- File extension string of a format. -/
def ImgFormat.toExt : ImgFormat → String
  | .jpeg => "jpeg"
  | .webp => "webp"
  | .png => "png"

/-- The `ThumbnailOptions` interface; `Option` fields model object
properties the caller may omit (`undefined`). -/
structure ThumbnailOptions where
  width : Nat
  height : Nat
  quality : Option Nat
  format : Option ImgFormat
deriving DecidableEq

/-- JavaScript `a || d` on a `number | undefined` value: `undefined`
and `0` are falsy, so both fall back to the default. -/
def jsOrNum (a : Option Nat) (d : Nat) : Nat :=
  match a with
  | none => d
  | some n => if n = 0 then d else n

/-- The fixed thumbnail directory (`private readonly thumbnailDir`). -/
def thumbnailDir : String := "thumbnails"

/-- The extension used for the output filename:
`options.format || 'jpeg'`. -/
def extensionOf (o : ThumbnailOptions) : String :=
  (o.format.getD ImgFormat.jpeg).toExt

/-- One configured invocation of the sharp pipeline, as built by
`sharp(src).resize(width, height, .fit, .position).jpeg(.quality,
.progressive, .mozjpeg)`. The `codec` field records which encoder
method was called on the chain. -/
structure SharpCall where
  width : Nat
  height : Nat
  fit : String
  position : String
  codec : ImgFormat
  quality : Nat
  progressive : Bool
  mozjpeg : Bool
deriving DecidableEq

/-- The pipeline that both `generateThumbnailFromFile` and
`generateThumbnailFromBuffer` build from the options. The encoder is
the `.jpeg(...)` method unconditionally; `options.format` is not
consulted when encoding, and the quality is `options.quality || 60`. -/
def sharpCallOf (o : ThumbnailOptions) : SharpCall :=
  { width := o.width
    height := o.height
    fit := "cover"
    position := "center"
    codec := ImgFormat.jpeg
    quality := jsOrNum o.quality 60
    progressive := true
    mozjpeg := true }

/-- The `ThumbnailResult` interface. -/
structure ThumbnailResult where
  thumbnailPath : String
  thumbnailUrl : String
  size : Nat
deriving DecidableEq

/-- Pure core of `generateThumbnailFromFile`: `uuid` is the value
`randomUUID()` returned, and `encode c` is the outcome of running the
sharp pipeline `c` on the image at `inputPath` and writing the output
file (`Except.ok size` on success, `Except.error message` when sharp
rejects); a failure is rethrown wrapped in the descriptive message. -/
def generateThumbnailFromFile (baseUrl uuid inputPath : String)
    (o : ThumbnailOptions) (encode : SharpCall → Except String Nat) :
    Except String ThumbnailResult :=
  let thumbnailFilename := uuid ++ "." ++ extensionOf o
  let thumbnailPath := thumbnailDir ++ "/" ++ thumbnailFilename
  match encode (sharpCallOf o) with
  | .ok size =>
      .ok { thumbnailPath := thumbnailPath
            thumbnailUrl := baseUrl ++ "/thumbnails/" ++ thumbnailFilename
            size := size }
  | .error e => .error ("Thumbnail generation failed: " ++ e)

/-- Pure core of `generateThumbnailFromBuffer`: the same pipeline as
`generateThumbnailFromFile`, with an in-memory buffer as source. -/
def generateThumbnailFromBuffer {B : Type} (baseUrl uuid : String) (buffer : B)
    (o : ThumbnailOptions) (encode : SharpCall → Except String Nat) :
    Except String ThumbnailResult :=
  let thumbnailFilename := uuid ++ "." ++ extensionOf o
  let thumbnailPath := thumbnailDir ++ "/" ++ thumbnailFilename
  match encode (sharpCallOf o) with
  | .ok size =>
      .ok { thumbnailPath := thumbnailPath
            thumbnailUrl := baseUrl ++ "/thumbnails/" ++ thumbnailFilename
            size := size }
  | .error e => .error ("Thumbnail generation failed: " ++ e)

/-- Filesystem abstraction used by the temp-file and delete claims:
the list of existing file paths. -/
abbrev FS := List String

/-- Create a file (`fs.writeFile`). -/
def writeF (fs : FS) (p : String) : FS :=
  if p ∈ fs then fs else p :: fs

/-- Best-effort removal, `fs.unlink(p).catch(ignore)`: after it the
path no longer exists and a missing file is not an error. -/
def unlinkQuiet (fs : FS) (p : String) : FS :=
  fs.filter (fun q => q != p)

/-- Relative URLs are resolved against the configured base URL. -/
def resolveUrl (baseUrl imageUrl : String) : String :=
  if imageUrl.startsWith "/" then baseUrl ++ imageUrl else imageUrl

/-- Temp path used by `generateThumbnailFromUrl` for the download. -/
def tempPathOf (tempId : String) : String :=
  thumbnailDir ++ "/" ++ ("temp_" ++ tempId)

/-- Error wrapper of `generateThumbnailFromUrl`'s catch block. -/
def urlWrap (e : String) : String :=
  "Thumbnail generation from URL failed: " ++ e

/-- Environment of one `generateThumbnailFromUrl` call: the outcome of
`fetch` on the resolved URL (an error covers both a network failure and
the explicit throw on a non-2xx response, carrying that message),
whether `fs.writeFile` for the temp file succeeds, and the sharp
outcome consumed by the delegated `generateThumbnailFromFile`. -/
structure UrlEnv where
  baseUrl : String
  fetch : String → Except String Unit
  writeOk : Bool
  encode : SharpCall → Except String Nat

/-- Pure core of `generateThumbnailFromUrl`: resolve the URL, download,
write the bytes to `tempPathOf tempId`, delegate to
`generateThumbnailFromFile`, and unlink the temp file on every path —
after success and in the catch block — ignoring unlink errors. The
returned `FS` tracks the temp-file namespace; thumbnail output files
are written by the abstracted `encode` and are not part of it. -/
def generateThumbnailFromUrl (env : UrlEnv) (fs : FS)
    (imageUrl tempId uuid : String) (options : ThumbnailOptions) :
    Except String ThumbnailResult × FS :=
  let tempPath := tempPathOf tempId
  match env.fetch (resolveUrl env.baseUrl imageUrl) with
  | .error e => (.error (urlWrap e), unlinkQuiet fs tempPath)
  | .ok _ =>
    if env.writeOk then
      let fs1 := writeF fs tempPath
      match generateThumbnailFromFile env.baseUrl uuid tempPath options env.encode with
      | .ok r => (.ok r, unlinkQuiet fs1 tempPath)
      | .error e => (.error (urlWrap e), unlinkQuiet fs1 tempPath)
    else
      (.error (urlWrap "write failed"), unlinkQuiet fs tempPath)

/-- The three default tiers of `generateMultipleThumbnails`:
small, medium, large. -/
def defaultSizes : ThumbnailOptions × ThumbnailOptions × ThumbnailOptions :=
  (⟨150, 150, some 60, some ImgFormat.jpeg⟩,
   ⟨400, 300, some 80, some ImgFormat.jpeg⟩,
   ⟨800, 600, some 85, some ImgFormat.jpeg⟩)

/-- Result map of `generateMultipleThumbnails` (all fields optional in
the TypeScript return type). -/
structure MultiResult (R : Type) where
  small : Option R
  medium : Option R
  large : Option R
deriving DecidableEq

/-- Pure core of `generateMultipleThumbnails`. The per-tier generators
are environment parameters. The source `Promise.all` joins the three
tiers: the call fulfills with all three results exactly when every tier
fulfills, and rejects when any tier rejects; that joint success/failure
envelope is modelled by `Except` binding. -/
def generateMultipleThumbnails {B R E : Type}
    (fromUrl : String → ThumbnailOptions → Except E R)
    (fromFile : String → ThumbnailOptions → Except E R)
    (fromBuffer : B → ThumbnailOptions → Except E R)
    (source : Sum String B)
    (sizes : ThumbnailOptions × ThumbnailOptions × ThumbnailOptions) :
    Except E (MultiResult R) :=
  match source with
  | .inl s =>
    if s.startsWith "http" || s.startsWith "/" then do
      let small ← fromUrl s sizes.1
      let medium ← fromUrl s sizes.2.1
      let large ← fromUrl s sizes.2.2
      pure ⟨some small, some medium, some large⟩
    else do
      let small ← fromFile s sizes.1
      let medium ← fromFile s sizes.2.1
      let large ← fromFile s sizes.2.2
      pure ⟨some small, some medium, some large⟩
  | .inr b => do
      let small ← fromBuffer b sizes.1
      let medium ← fromBuffer b sizes.2.1
      let large ← fromBuffer b sizes.2.2
      pure ⟨some small, some medium, some large⟩

/-- Modelled from the spec's dispatch description of
`generateMultipleSizes` (for comparison with the source translation
above): a buffer source uses the buffer pipeline, and a string source
uses the URL pipeline when it starts with "http" or "/", otherwise the
file pipeline. -/
def specDispatch {B R E : Type}
    (fromUrl : String → ThumbnailOptions → Except E R)
    (fromFile : String → ThumbnailOptions → Except E R)
    (fromBuffer : B → ThumbnailOptions → Except E R)
    (source : Sum String B) : ThumbnailOptions → Except E R :=
  match source with
  | .inl s =>
    if s.startsWith "http" || s.startsWith "/" then fromUrl s else fromFile s
  | .inr b => fromBuffer b

/-- Helper of `basename`: the characters after the last separator. -/
def lastSegment : List Char → List Char → List Char
  | cur, [] => cur
  | cur, ch :: rest =>
    if ch = '/' then lastSegment [] rest else lastSegment (cur ++ [ch]) rest

/-- Model of Node's `path.basename` for the separator-net URL shapes
the service produces (no trailing separator): the final `/`-separated
component. -/
def basename (p : String) : String :=
  String.mk (lastSegment [] p.data)

/-- Pure core of `deleteThumbnail`: `fs.unlink` succeeds exactly when
the backing file exists, and the catch block turns any unlink failure
into a `false` return rather than an exception. -/
def deleteThumbnail (fs : FS) (thumbnailUrl : String) : Bool × FS :=
  let filename := basename thumbnailUrl
  let filePath := thumbnailDir ++ "/" ++ filename
  if filePath ∈ fs then (true, unlinkQuiet fs filePath) else (false, fs)

/-- Pipeline oracle reporting the encoder quality it was invoked with,
used to observe the quality a generation call actually passes to
sharp. -/
def qualityProbe : SharpCall → Except String Nat :=
  fun c => .ok c.quality

end ThumbnailService

namespace LazyImage

/-- Per-instance React state of the `LazyImage` component. The five
`useState` booleans of the source, plus `observing` (whether the
intersection observer is still attached to the container) and
`timerPending` (whether the 1.5s `setTimeout` scheduled by
`handleThumbnailLoad` has been scheduled and not yet fired). -/
structure LIState where
  imageInView : Bool
  thumbnailLoaded : Bool
  imageLoaded : Bool
  imageError : Bool
  shouldLoadFullImage : Bool
  observing : Bool
  timerPending : Bool
deriving DecidableEq

/-- Per-instance props that determine behaviour: whether a
`thumbnailUrl` prop is present (truthy) and the value of
`loadFullImageImmediately`. -/
structure LIConfig where
  hasThumbnailUrl : Bool
  loadFullImageImmediately : Bool
deriving DecidableEq

/-- The UI events a mounted instance can receive: the intersection
callback with an intersecting entry, the same callback with a
non-intersecting entry, the thumbnail image's load and error events,
pointer entry over the thumbnail, the 1.5s timer firing, and the
full-resolution probe image's load and error events. -/
inductive LIEvent
  | intersect
  | leave
  | thumbnailLoad
  | thumbnailError
  | hoverThumbnail
  | fullLoadTimer
  | fullImageLoad
  | fullImageError
deriving DecidableEq

/-- Condition under which the thumbnail `img` element is mounted
(`showThumbnail` in the source). -/
def showThumbnail (c : LIConfig) (s : LIState) : Bool :=
  s.imageInView && c.hasThumbnailUrl && !s.imageLoaded

/-- Condition under which the full image `img` element is mounted
(`showFullImage` in the source). -/
def showFullImage (c : LIConfig) (s : LIState) : Bool :=
  s.imageInView && c.hasThumbnailUrl && s.imageLoaded

/-- Condition under which the direct (no-thumbnail) `img` element is
mounted (`showDirectImage` in the source). -/
def showDirectImage (c : LIConfig) (s : LIState) : Bool :=
  s.imageInView && !c.hasThumbnailUrl

/-- Condition under which the loading skeleton is mounted
(the `!imageInView` guard in the JSX). -/
def showSkeleton (s : LIState) : Bool :=
  !s.imageInView

/-- Guard of the effect that creates the off-DOM full-image probe
(`shouldLoadFullImage && !imageLoaded && thumbnailUrl`). -/
def probeActive (c : LIConfig) (s : LIState) : Bool :=
  s.shouldLoadFullImage && !s.imageLoaded && c.hasThumbnailUrl

/-- State at mount: nothing loaded, observer attached by the mount
effect. -/
def initState : LIState :=
  { imageInView := false
    thumbnailLoaded := false
    imageLoaded := false
    imageError := false
    shouldLoadFullImage := false
    observing := true
    timerPending := false }

/-- One UI event applied to the component state; `none` means the
event cannot occur in that state (its element is not mounted, its
observer has been detached, or its guard fails). Effects follow the
source handlers: the intersection callback sets `imageInView` and
unobserves; a non-intersecting entry is ignored; `handleThumbnailLoad`
sets `thumbnailLoaded` and, in immediate mode with a thumbnail URL,
schedules the 1.5s timer; `triggerFullImageLoad` (hover) sets
`shouldLoadFullImage` when a thumbnail URL is present and it is not
already set; the timer firing sets `shouldLoadFullImage`; the probe's
`onload` is `handleLoad` (sets `imageLoaded`); every `onerror` is
`handleError` (sets `imageError`). -/
def step (c : LIConfig) (s : LIState) : LIEvent → Option LIState
  | .intersect =>
      if s.observing then
        some { s with imageInView := true, observing := false }
      else none
  | .leave => if s.observing then some s else none
  | .thumbnailLoad =>
      if showThumbnail c s then
        some { s with
                thumbnailLoaded := true
                timerPending := s.timerPending ||
                  (c.loadFullImageImmediately && c.hasThumbnailUrl) }
      else none
  | .thumbnailError =>
      if showThumbnail c s then some { s with imageError := true } else none
  | .hoverThumbnail =>
      if showThumbnail c s then
        some (if c.hasThumbnailUrl && !s.shouldLoadFullImage then
                { s with shouldLoadFullImage := true }
              else s)
      else none
  | .fullLoadTimer =>
      if s.timerPending then
        some { s with shouldLoadFullImage := true, timerPending := false }
      else none
  | .fullImageLoad =>
      if probeActive c s || showDirectImage c s then
        some { s with imageLoaded := true }
      else none
  | .fullImageError =>
      if probeActive c s || showDirectImage c s || showFullImage c s then
        some { s with imageError := true }
      else none

/-- Run a list of events from a state; `none` when some event in the
list cannot occur. -/
def run (c : LIConfig) : List LIEvent → LIState → Option LIState
  | [], s => some s
  | e :: tr, s => (step c s e).bind (run c tr)

/-- The content an instance renders, by the mount conditions of the
JSX, with the error placeholder layered over partial content. `blank`
is the value when no element at all is mounted. -/
inductive RenderView
  | skeleton
  | thumbnail
  | fullImage
  | directImage
  | failed
  | blank
deriving DecidableEq

/-- Rendered content of a state. -/
def render (c : LIConfig) (s : LIState) : RenderView :=
  if s.imageError then .failed
  else if showSkeleton s then .skeleton
  else if showFullImage c s then .fullImage
  else if showThumbnail c s then .thumbnail
  else if showDirectImage c s then .directImage
  else .blank

/-- Position of a view in the progressive sequence
skeleton, thumbnail, full. -/
def renderRank : RenderView → Nat
  | .skeleton => 0
  | .thumbnail => 1
  | .fullImage => 2
  | .directImage => 3
  | .failed => 3
  | .blank => 3

/-- The two load-failure events. -/
def isErrorEvent : LIEvent → Bool
  | .thumbnailError => true
  | .fullImageError => true
  | _ => false

/-- A trace in which no load fails. -/
def noErrorTrace (tr : List LIEvent) : Bool :=
  tr.all (fun e => !isErrorEvent e)

/-- Helper: every `fullImageLoad` in the trace is preceded by a
`thumbnailLoad`; `seen` records whether one has already occurred. -/
def thumbBeforeFullAux : Bool → List LIEvent → Bool
  | _, [] => true
  | seen, e :: tr =>
    match e with
    | .thumbnailLoad => thumbBeforeFullAux true tr
    | .fullImageLoad => seen && thumbBeforeFullAux seen tr
    | _ => thumbBeforeFullAux seen tr

/-- The thumbnail's load completes before the full image's load. -/
def thumbBeforeFull (tr : List LIEvent) : Bool :=
  thumbBeforeFullAux false tr

/-- Reachability invariant of the machine on error-free traces:
no error is recorded, and each of `shouldLoadFullImage`,
`thumbnailLoaded` and `imageLoaded` can only be set once the container
is in view; a pending timer implies the thumbnail has loaded. -/
def invB (s : LIState) : Bool :=
  !s.imageError &&
  (!s.shouldLoadFullImage || s.imageInView) &&
  (!s.thumbnailLoaded || s.imageInView) &&
  (!s.timerPending || s.thumbnailLoaded) &&
  (!s.imageLoaded || s.imageInView)

/-- Boolean predicate over an optional next state, `true` when the
step was disabled. -/
def optAll (f : LIState → Bool) : Option LIState → Bool
  | none => true
  | some s => f s

end LazyImage

namespace ImageZoomModal

/-- `handleZoomIn`: multiply by 1.5 and clamp to at most five times the
fit baseline. JavaScript numbers are modelled by exact rationals. -/
def handleZoomIn (baseZoom zoom : ℚ) : ℚ :=
  min (zoom * 1.5) (baseZoom * 5)

/-- `handleZoomOut`: divide by 1.5 and clamp to at least a fifth
(0.2 times) of the fit baseline. -/
def handleZoomOut (baseZoom zoom : ℚ) : ℚ :=
  max (zoom / 1.5) (baseZoom * 0.2)

/-- A zoom button press or keyboard shortcut. -/
inductive ZoomOp
  | zoomIn
  | zoomOut
deriving DecidableEq

/-- Apply one zoom operation. -/
def applyZoomOp (baseZoom zoom : ℚ) : ZoomOp → ℚ
  | .zoomIn => handleZoomIn baseZoom zoom
  | .zoomOut => handleZoomOut baseZoom zoom

/-- Apply a sequence of zoom operations in order. -/
def applyZoomOps (baseZoom zoom : ℚ) : List ZoomOp → ℚ
  | [] => zoom
  | op :: ops => applyZoomOps baseZoom (applyZoomOp baseZoom zoom op) ops

end ImageZoomModal

namespace VirtualizedGrid

/-- The page size constant of the component. -/
def ITEMS_PER_PAGE : Nat := 12

/-- The two `useState` variables of `VirtualizedGrid`. -/
structure GridState where
  visibleItems : Nat
  loading : Bool
deriving DecidableEq

/-- Initial state: `useState(ITEMS_PER_PAGE)` and `useState(false)`. -/
def initState : GridState :=
  { visibleItems := ITEMS_PER_PAGE, loading := false }

/-- `displayedItems`: the rendered cells, `items.slice(0, visibleItems)`. -/
def displayedItems {α : Type} (items : List α) (st : GridState) : List α :=
  items.take st.visibleItems

/-- `hasMore`: whether the load-more action is shown. -/
def hasMore {α : Type} (items : List α) (st : GridState) : Bool :=
  decide (st.visibleItems < items.length)

/-- The synthetic delay (in milliseconds) `loadMore` awaits before
clearing the loading indicator. -/
def loadMoreDelayMs : Nat := 100

/-- A completed `loadMore` invocation: the early return fires while a
load is pending or nothing remains; otherwise, after the synthetic
delay, the next page is appended and the loading indicator cleared. -/
def loadMore {α : Type} (items : List α) (st : GridState) : GridState :=
  if st.loading || !hasMore items st then st
  else { visibleItems := st.visibleItems + ITEMS_PER_PAGE, loading := false }

/-- The effect on `[items]`: a change of the upstream list's identity
resets the visible count to the first page. -/
def resetOnItemsChange (st : GridState) : GridState :=
  { st with visibleItems := ITEMS_PER_PAGE }

end VirtualizedGrid

namespace LazyImage

lemma optAll_step {f : LIState → Bool} {c : LIConfig} {s s' : LIState}
    {e : LIEvent} (h : optAll f (step c s e) = true)
    (hs : step c s e = some s') : f s' = true := by
  rw [hs] at h
  exact h

lemma step_inView_mono : ∀ (c : LIConfig) (s : LIState) (e : LIEvent),
    s.imageInView = true →
    optAll (fun s' => s'.imageInView) (step c s e) = true := by
  intro c s e
  obtain ⟨ht, li⟩ := c
  obtain ⟨iv, tl, il, ie, sl, ob, tp⟩ := s
  cases e <;> (revert ht li iv tl il ie sl ob tp; decide)

lemma step_thumbLoaded_mono : ∀ (c : LIConfig) (s : LIState) (e : LIEvent),
    s.thumbnailLoaded = true →
    optAll (fun s' => s'.thumbnailLoaded) (step c s e) = true := by
  intro c s e
  obtain ⟨ht, li⟩ := c
  obtain ⟨iv, tl, il, ie, sl, ob, tp⟩ := s
  cases e <;> (revert ht li iv tl il ie sl ob tp; decide)

lemma step_invB : ∀ (c : LIConfig) (s : LIState) (e : LIEvent),
    isErrorEvent e = false → invB s = true →
    optAll invB (step c s e) = true := by
  intro c s e
  obtain ⟨ht, li⟩ := c
  obtain ⟨iv, tl, il, ie, sl, ob, tp⟩ := s
  cases e <;> (revert ht li iv tl il ie sl ob tp; decide)

lemma step_thumbnailLoad_sets : ∀ (c : LIConfig) (s : LIState),
    optAll (fun s' => s'.thumbnailLoaded) (step c s LIEvent.thumbnailLoad) = true := by
  intro c s
  obtain ⟨ht, li⟩ := c
  obtain ⟨iv, tl, il, ie, sl, ob, tp⟩ := s
  revert ht li iv tl il ie sl ob tp
  decide

lemma step_pres_loads : ∀ (c : LIConfig) (s : LIState) (e : LIEvent),
    e ≠ LIEvent.thumbnailLoad → e ≠ LIEvent.fullImageLoad →
    optAll (fun s' => (s'.thumbnailLoaded == s.thumbnailLoaded) &&
      (s'.imageLoaded == s.imageLoaded)) (step c s e) = true := by
  intro c s e
  obtain ⟨ht, li⟩ := c
  obtain ⟨iv, tl, il, ie, sl, ob, tp⟩ := s
  cases e <;> (revert ht li iv tl il ie sl ob tp; decide)

lemma step_render_rank : ∀ (c : LIConfig) (s : LIState) (e : LIEvent),
    c.hasThumbnailUrl = true → invB s = true → isErrorEvent e = false →
    optAll (fun s' =>
        Nat.ble (renderRank (render c s)) (renderRank (render c s')) &&
        !((render c s == RenderView.skeleton) &&
          (render c s' == RenderView.fullImage)))
      (step c s e) = true := by
  intro c s e
  obtain ⟨ht, li⟩ := c
  obtain ⟨iv, tl, il, ie, sl, ob, tp⟩ := s
  cases e <;> (revert ht li iv tl il ie sl ob tp; decide)

lemma render_classify : ∀ (c : LIConfig) (s : LIState),
    c.hasThumbnailUrl = true → invB s = true →
    render c s ≠ RenderView.blank ∧ render c s ≠ RenderView.failed ∧
      (render c s = RenderView.fullImage → s.imageLoaded = true) := by
  intro c s
  obtain ⟨ht, li⟩ := c
  obtain ⟨iv, tl, il, ie, sl, ob, tp⟩ := s
  revert ht li iv tl il ie sl ob tp
  decide

lemma render_ne_skeleton_of_inView : ∀ (c : LIConfig) (s : LIState),
    s.imageInView = true → render c s ≠ RenderView.skeleton := by
  intro c s
  obtain ⟨ht, li⟩ := c
  obtain ⟨iv, tl, il, ie, sl, ob, tp⟩ := s
  revert ht li iv tl il ie sl ob tp
  decide

lemma intersect_oneshot_step : ∀ (c : LIConfig) (s : LIState),
    optAll (fun s' => s'.imageInView && (s'.observing == false) &&
        (step c s' LIEvent.intersect).isNone)
      (step c s LIEvent.intersect) = true := by
  intro c s
  obtain ⟨ht, li⟩ := c
  obtain ⟨iv, tl, il, ie, sl, ob, tp⟩ := s
  revert ht li iv tl il ie sl ob tp
  decide

lemma leave_noop_step : ∀ (c : LIConfig) (s : LIState),
    optAll (fun s' => decide (s' = s)) (step c s LIEvent.leave) = true := by
  intro c s
  obtain ⟨ht, li⟩ := c
  obtain ⟨iv, tl, il, ie, sl, ob, tp⟩ := s
  revert ht li iv tl il ie sl ob tp
  decide

lemma run_inView_mono : ∀ (tr : List LIEvent) (c : LIConfig) (s s' : LIState),
    run c tr s = some s' → s.imageInView = true → s'.imageInView = true := by
  intro tr
  induction tr with
  | nil =>
    intro c s s' h hv
    simp only [run, Option.some.injEq] at h
    rw [← h]
    exact hv
  | cons e tr ih =>
    intro c s s' h hv
    simp only [run] at h
    cases hs : step c s e with
    | none => rw [hs] at h; simp at h
    | some s1 =>
      rw [hs] at h
      simp only [Option.some_bind] at h
      exact ih c s1 s' h (optAll_step (step_inView_mono c s e hv) hs)

lemma run_invB : ∀ (tr : List LIEvent) (c : LIConfig) (s s' : LIState),
    noErrorTrace tr = true → invB s = true → run c tr s = some s' →
    invB s' = true := by
  intro tr
  induction tr with
  | nil =>
    intro c s s' _ hi h
    simp only [run, Option.some.injEq] at h
    rw [← h]
    exact hi
  | cons e tr ih =>
    intro c s s' hne hi h
    simp only [noErrorTrace, List.all_cons, Bool.and_eq_true,
      Bool.not_eq_true'] at hne
    simp only [run] at h
    cases hs : step c s e with
    | none => rw [hs] at h; simp at h
    | some s1 =>
      rw [hs] at h
      simp only [Option.some_bind] at h
      have h1 : invB s1 = true :=
        optAll_step (step_invB c s e hne.1 hi) hs
      exact ih c s1 s' (by simp [noErrorTrace, hne.2]) h1 h

lemma run_full_after_thumb :
    ∀ (tr : List LIEvent) (c : LIConfig) (s s' : LIState),
    (s.imageLoaded = true → s.thumbnailLoaded = true) →
    thumbBeforeFullAux s.thumbnailLoaded tr = true →
    run c tr s = some s' →
    s'.imageLoaded = true → s'.thumbnailLoaded = true := by
  intro tr
  induction tr with
  | nil =>
    intro c s s' hst _ h
    simp only [run, Option.some.injEq] at h
    rw [← h]
    exact hst
  | cons e tr ih =>
    intro c s s' hst htbf h
    simp only [run] at h
    cases hs : step c s e with
    | none => rw [hs] at h; simp at h
    | some s1 =>
      rw [hs] at h
      simp only [Option.some_bind] at h
      cases e with
      | thumbnailLoad =>
        have h1 : s1.thumbnailLoaded = true :=
          optAll_step (step_thumbnailLoad_sets c s) hs
        simp only [thumbBeforeFullAux] at htbf
        exact ih c s1 s' (fun _ => h1) (by rw [h1]; exact htbf) h
      | fullImageLoad =>
        simp only [thumbBeforeFullAux, Bool.and_eq_true] at htbf
        have h1 : s1.thumbnailLoaded = true :=
          optAll_step (step_thumbLoaded_mono c s _ htbf.1) hs
        have h2 := htbf.2
        rw [htbf.1] at h2
        exact ih c s1 s' (fun _ => h1) (by rw [h1]; exact h2) h
      | intersect =>
        have h1 := optAll_step (step_pres_loads c s _ (by simp) (by simp)) hs
        simp only [Bool.and_eq_true, beq_iff_eq] at h1
        simp only [thumbBeforeFullAux] at htbf
        exact ih c s1 s' (by rw [h1.1, h1.2]; exact hst) (by rw [h1.1]; exact htbf) h
      | leave =>
        have h1 := optAll_step (step_pres_loads c s _ (by simp) (by simp)) hs
        simp only [Bool.and_eq_true, beq_iff_eq] at h1
        simp only [thumbBeforeFullAux] at htbf
        exact ih c s1 s' (by rw [h1.1, h1.2]; exact hst) (by rw [h1.1]; exact htbf) h
      | thumbnailError =>
        have h1 := optAll_step (step_pres_loads c s _ (by simp) (by simp)) hs
        simp only [Bool.and_eq_true, beq_iff_eq] at h1
        simp only [thumbBeforeFullAux] at htbf
        exact ih c s1 s' (by rw [h1.1, h1.2]; exact hst) (by rw [h1.1]; exact htbf) h
      | hoverThumbnail =>
        have h1 := optAll_step (step_pres_loads c s _ (by simp) (by simp)) hs
        simp only [Bool.and_eq_true, beq_iff_eq] at h1
        simp only [thumbBeforeFullAux] at htbf
        exact ih c s1 s' (by rw [h1.1, h1.2]; exact hst) (by rw [h1.1]; exact htbf) h
      | fullLoadTimer =>
        have h1 := optAll_step (step_pres_loads c s _ (by simp) (by simp)) hs
        simp only [Bool.and_eq_true, beq_iff_eq] at h1
        simp only [thumbBeforeFullAux] at htbf
        exact ih c s1 s' (by rw [h1.1, h1.2]; exact hst) (by rw [h1.1]; exact htbf) h
      | fullImageError =>
        have h1 := optAll_step (step_pres_loads c s _ (by simp) (by simp)) hs
        simp only [Bool.and_eq_true, beq_iff_eq] at h1
        simp only [thumbBeforeFullAux] at htbf
        exact ih c s1 s' (by rw [h1.1, h1.2]; exact hst) (by rw [h1.1]; exact htbf) h

lemma thumbBeforeFullAux_append_left :
    ∀ (l r : List LIEvent) (b : Bool),
    thumbBeforeFullAux b (l ++ r) = true → thumbBeforeFullAux b l = true := by
  intro l
  induction l with
  | nil => intro r b _; rfl
  | cons e l ih =>
    intro r b h
    cases e with
    | thumbnailLoad =>
      simp only [List.cons_append, thumbBeforeFullAux] at h ⊢
      exact ih r true h
    | fullImageLoad =>
      simp only [List.cons_append, thumbBeforeFullAux, Bool.and_eq_true] at h ⊢
      exact ⟨h.1, ih r b h.2⟩
    | intersect =>
      simp only [List.cons_append, thumbBeforeFullAux] at h ⊢
      exact ih r b h
    | leave =>
      simp only [List.cons_append, thumbBeforeFullAux] at h ⊢
      exact ih r b h
    | thumbnailError =>
      simp only [List.cons_append, thumbBeforeFullAux] at h ⊢
      exact ih r b h
    | hoverThumbnail =>
      simp only [List.cons_append, thumbBeforeFullAux] at h ⊢
      exact ih r b h
    | fullLoadTimer =>
      simp only [List.cons_append, thumbBeforeFullAux] at h ⊢
      exact ih r b h
    | fullImageError =>
      simp only [List.cons_append, thumbBeforeFullAux] at h ⊢
      exact ih r b h

end LazyImage

namespace ImageZoomModal

lemma zoomOp_bounds (b z : ℚ) (hb : 0 ≤ b) (op : ZoomOp)
    (h1 : b * 0.2 ≤ z) (h2 : z ≤ b * 5) :
    b * 0.2 ≤ applyZoomOp b z op ∧ applyZoomOp b z op ≤ b * 5 := by
  have hz : 0 ≤ z := le_trans (by positivity) h1
  cases op with
  | zoomIn =>
    constructor
    · exact le_min (by nlinarith) (by nlinarith)
    · exact min_le_right _ _
  | zoomOut =>
    constructor
    · exact le_max_right _ _
    · refine max_le ?_ (by nlinarith)
      calc z / 1.5 ≤ z := by
            apply div_le_self hz
            norm_num
        _ ≤ b * 5 := h2

lemma applyZoomOps_bounds (b : ℚ) (hb : 0 ≤ b) :
    ∀ (ops : List ZoomOp) (z : ℚ), b * 0.2 ≤ z → z ≤ b * 5 →
    b * 0.2 ≤ applyZoomOps b z ops ∧ applyZoomOps b z ops ≤ b * 5 := by
  intro ops
  induction ops with
  | nil => intro z h1 h2; exact ⟨h1, h2⟩
  | cons op ops ih =>
    intro z h1 h2
    obtain ⟨g1, g2⟩ := zoomOp_bounds b z hb op h1 h2
    exact ih _ g1 g2

end ImageZoomModal

namespace ThumbnailService

lemma notMem_unlinkQuiet (fs : FS) (p : String) : p ∉ unlinkQuiet fs p := by
  simp [unlinkQuiet, List.mem_filter]

lemma generateMultiple_eq {B R E : Type}
    (fromUrl : String → ThumbnailOptions → Except E R)
    (fromFile : String → ThumbnailOptions → Except E R)
    (fromBuffer : B → ThumbnailOptions → Except E R)
    (source : Sum String B)
    (sizes : ThumbnailOptions × ThumbnailOptions × ThumbnailOptions) :
    generateMultipleThumbnails fromUrl fromFile fromBuffer source sizes =
      (do
        let small ← specDispatch fromUrl fromFile fromBuffer source sizes.1
        let medium ← specDispatch fromUrl fromFile fromBuffer source sizes.2.1
        let large ← specDispatch fromUrl fromFile fromBuffer source sizes.2.2
        pure ⟨some small, some medium, some large⟩) := by
  cases source with
  | inl s =>
    by_cases hc : (s.startsWith "http" || s.startsWith "/") = true
    · simp [generateMultipleThumbnails, specDispatch, hc]
    · simp [generateMultipleThumbnails, specDispatch, hc]
  | inr b => rfl

end ThumbnailService

/-- C1: a generation call with an explicit format override names the
output file with that format's extension, but the encoder invoked on
the sharp chain is still `.jpeg`, so the output bytes are not
re-encoded in the requested format (evaluated here at a concrete
`webp` override). -/
theorem c1_format_override_not_reencoded :
    (ThumbnailService.sharpCallOf
        ⟨200, 200, none, some ThumbnailService.ImgFormat.webp⟩).codec =
      ThumbnailService.ImgFormat.jpeg ∧
    ThumbnailService.extensionOf
        ⟨200, 200, none, some ThumbnailService.ImgFormat.webp⟩ = "webp" ∧
    ThumbnailService.ImgFormat.jpeg ≠ ThumbnailService.ImgFormat.webp := by
  refine ⟨rfl, rfl, by decide⟩

/-- C10: a generation call that explicitly passes quality 0 actually
encodes at quality 60, because the default is applied with a
falsy-value fallback; observed through a pipeline oracle returning the
quality it was invoked with, for both the file and buffer entry
points. -/
theorem c10_quality_zero_fallback (w h : Nat)
    (f : Option ThumbnailService.ImgFormat) (base uuid inputPath : String) :
    (ThumbnailService.generateThumbnailFromFile base uuid inputPath
        ⟨w, h, some 0, f⟩ ThumbnailService.qualityProbe).map
        ThumbnailService.ThumbnailResult.size = Except.ok 60 ∧
    ∀ (buffer : Unit),
      (ThumbnailService.generateThumbnailFromBuffer base uuid buffer
          ⟨w, h, some 0, f⟩ ThumbnailService.qualityProbe).map
          ThumbnailService.ThumbnailResult.size = Except.ok 60 := by
  exact ⟨rfl, fun _ => rfl⟩

/-- C6: in the zoom viewer, any sequence of zoom-in and zoom-out
operations started from the fit baseline stays within the closed
interval from 0.2 times to 5 times the baseline. -/
theorem c6_zoom_clamped (b : ℚ) (hb : 0 ≤ b)
    (ops : List ImageZoomModal.ZoomOp) :
    b * 0.2 ≤ ImageZoomModal.applyZoomOps b b ops ∧
      ImageZoomModal.applyZoomOps b b ops ≤ b * 5 :=
  ImageZoomModal.applyZoomOps_bounds b hb ops b (by nlinarith) (by nlinarith)

/-- Witness for C6 at baseline 2 and a concrete operation sequence. -/
theorem c6_zoom_clamped_witness :
    (0 : ℚ) ≤ 2 ∧
      ((2 : ℚ) * 0.2 ≤ ImageZoomModal.applyZoomOps 2 2
          [ImageZoomModal.ZoomOp.zoomIn, ImageZoomModal.ZoomOp.zoomIn,
            ImageZoomModal.ZoomOp.zoomOut] ∧
        ImageZoomModal.applyZoomOps 2 2
          [ImageZoomModal.ZoomOp.zoomIn, ImageZoomModal.ZoomOp.zoomIn,
            ImageZoomModal.ZoomOp.zoomOut] ≤ (2 : ℚ) * 5) :=
  ⟨by norm_num, c6_zoom_clamped 2 (by norm_num) _⟩

/-- C7: deleting a thumbnail whose backing file does not exist returns
false without raising and leaves the filesystem unchanged, and a
successful removal returns true and removes the backing file. -/
theorem c7_delete_thumbnail (fs : ThumbnailService.FS) (url : String) :
    (ThumbnailService.thumbnailDir ++ "/" ++ ThumbnailService.basename url ∉ fs →
      ThumbnailService.deleteThumbnail fs url = (false, fs)) ∧
    (ThumbnailService.thumbnailDir ++ "/" ++ ThumbnailService.basename url ∈ fs →
      (ThumbnailService.deleteThumbnail fs url).1 = true ∧
      ThumbnailService.thumbnailDir ++ "/" ++ ThumbnailService.basename url ∉
        (ThumbnailService.deleteThumbnail fs url).2) := by
  constructor
  · intro h
    simp [ThumbnailService.deleteThumbnail, h]
  · intro h
    refine ⟨by simp [ThumbnailService.deleteThumbnail, h], ?_⟩
    simp [ThumbnailService.deleteThumbnail, h]
    exact ThumbnailService.notMem_unlinkQuiet fs _

/-- Witness for C7: removing an existing file through its URL. -/
theorem c7_delete_thumbnail_witness :
    (ThumbnailService.thumbnailDir ++ "/" ++
        ThumbnailService.basename "http://localhost:5000/thumbnails/a.jpeg" ∈
      (["thumbnails/a.jpeg"] : ThumbnailService.FS)) ∧
    ((ThumbnailService.deleteThumbnail ["thumbnails/a.jpeg"]
        "http://localhost:5000/thumbnails/a.jpeg").1 = true ∧
      ThumbnailService.thumbnailDir ++ "/" ++
          ThumbnailService.basename "http://localhost:5000/thumbnails/a.jpeg" ∉
        (ThumbnailService.deleteThumbnail ["thumbnails/a.jpeg"]
          "http://localhost:5000/thumbnails/a.jpeg").2) :=
  ⟨by decide, (c7_delete_thumbnail ["thumbnails/a.jpeg"]
      "http://localhost:5000/thumbnails/a.jpeg").2 (by decide)⟩

/-- C8: the grid initially renders the first min(pageSize, N) items; an
enabled loadMore invocation appends the next page of 12 and ends with
the loading indicator cleared; with 30 items one invocation yields 24
cells, two yield all 30 and hide the load-more action; a change of the
upstream item list resets the visible count to the first page; the
synthetic delay constant is 100ms. -/
theorem c8_grid_pagination {α : Type} (items : List α) :
    (VirtualizedGrid.displayedItems items VirtualizedGrid.initState).length =
        min VirtualizedGrid.ITEMS_PER_PAGE items.length ∧
    (∀ st : VirtualizedGrid.GridState, st.loading = false →
        VirtualizedGrid.hasMore items st = true →
      VirtualizedGrid.displayedItems items (VirtualizedGrid.loadMore items st) =
          VirtualizedGrid.displayedItems items st ++
            (items.drop st.visibleItems).take VirtualizedGrid.ITEMS_PER_PAGE ∧
        (VirtualizedGrid.loadMore items st).loading = false) ∧
    (items.length = 30 →
      (VirtualizedGrid.displayedItems items
          (VirtualizedGrid.loadMore items VirtualizedGrid.initState)).length = 24 ∧
      (VirtualizedGrid.displayedItems items
          (VirtualizedGrid.loadMore items
            (VirtualizedGrid.loadMore items VirtualizedGrid.initState))).length = 30 ∧
      VirtualizedGrid.hasMore items
          (VirtualizedGrid.loadMore items
            (VirtualizedGrid.loadMore items VirtualizedGrid.initState)) = false) ∧
    (∀ st : VirtualizedGrid.GridState,
      (VirtualizedGrid.resetOnItemsChange st).visibleItems =
        VirtualizedGrid.ITEMS_PER_PAGE) ∧
    VirtualizedGrid.loadMoreDelayMs = 100 := by
  refine ⟨?_, ?_, ?_, fun st => rfl, rfl⟩
  · simp [VirtualizedGrid.displayedItems, VirtualizedGrid.initState,
      List.length_take]
  · intro st h1 h2
    constructor
    · simp only [VirtualizedGrid.loadMore, h1, h2, Bool.not_true,
        Bool.false_or, if_false, VirtualizedGrid.displayedItems]
      exact List.take_add items st.visibleItems VirtualizedGrid.ITEMS_PER_PAGE
    · simp [VirtualizedGrid.loadMore, h1, h2]
  · intro h30
    have hm1 : VirtualizedGrid.hasMore items VirtualizedGrid.initState = true := by
      simp [VirtualizedGrid.hasMore, VirtualizedGrid.initState, h30,
        VirtualizedGrid.ITEMS_PER_PAGE]
    have hs1 : VirtualizedGrid.loadMore items VirtualizedGrid.initState =
        ⟨24, false⟩ := by
      simp only [VirtualizedGrid.loadMore, hm1]
      norm_num [VirtualizedGrid.initState, VirtualizedGrid.ITEMS_PER_PAGE]
    have hm2 : VirtualizedGrid.hasMore items (⟨24, false⟩ :
        VirtualizedGrid.GridState) = true := by
      simp [VirtualizedGrid.hasMore, h30]
    have hs2 : VirtualizedGrid.loadMore items (⟨24, false⟩ :
        VirtualizedGrid.GridState) = ⟨36, false⟩ := by
      simp only [VirtualizedGrid.loadMore, hm2]
      norm_num [VirtualizedGrid.ITEMS_PER_PAGE]
    rw [hs1, hs2]
    refine ⟨?_, ?_, ?_⟩
    · simp [VirtualizedGrid.displayedItems, List.length_take, h30]
    · simp [VirtualizedGrid.displayedItems, List.length_take, h30]
    · simp [VirtualizedGrid.hasMore, h30]

/-- Witness for C8 on a concrete list of 30 items. -/
theorem c8_grid_pagination_witness :
    ((List.range 30).length = 30 ∧
      VirtualizedGrid.hasMore (List.range 30)
        (⟨12, false⟩ : VirtualizedGrid.GridState) = true) ∧
    (VirtualizedGrid.displayedItems (List.range 30)
        (VirtualizedGrid.loadMore (List.range 30)
          (⟨12, false⟩ : VirtualizedGrid.GridState)) =
      VirtualizedGrid.displayedItems (List.range 30)
          (⟨12, false⟩ : VirtualizedGrid.GridState) ++
        ((List.range 30).drop 12).take VirtualizedGrid.ITEMS_PER_PAGE ∧
      (VirtualizedGrid.loadMore (List.range 30)
        (⟨12, false⟩ : VirtualizedGrid.GridState)).loading = false) ∧
    ((VirtualizedGrid.displayedItems (List.range 30)
        (VirtualizedGrid.loadMore (List.range 30)
          VirtualizedGrid.initState)).length = 24 ∧
      (VirtualizedGrid.displayedItems (List.range 30)
          (VirtualizedGrid.loadMore (List.range 30)
            (VirtualizedGrid.loadMore (List.range 30)
              VirtualizedGrid.initState))).length = 30 ∧
      VirtualizedGrid.hasMore (List.range 30)
          (VirtualizedGrid.loadMore (List.range 30)
            (VirtualizedGrid.loadMore (List.range 30)
              VirtualizedGrid.initState)) = false) :=
  ⟨⟨by decide, by decide⟩,
    (c8_grid_pagination (List.range 30)).2.1 ⟨12, false⟩ rfl (by decide),
    (c8_grid_pagination (List.range 30)).2.2.1 (by decide)⟩

/-- C9: every generated thumbnail is written under a filename of the
form uuid.ext where ext is the requested format option, defaulting to
jpeg, and the returned URL ends with that filename; a webp override
yields a filename with the .webp suffix. -/
theorem c9_filename_format {B : Type} (base uuid inputPath : String)
    (o : ThumbnailService.ThumbnailOptions)
    (encode : ThumbnailService.SharpCall → Except String Nat) :
    (∀ r, ThumbnailService.generateThumbnailFromFile base uuid inputPath o
        encode = Except.ok r →
      r.thumbnailPath = ThumbnailService.thumbnailDir ++ "/" ++
          (uuid ++ "." ++ ThumbnailService.extensionOf o) ∧
        ∃ q, r.thumbnailUrl = q ++ (uuid ++ "." ++ ThumbnailService.extensionOf o)) ∧
    (∀ (buffer : B) r,
      ThumbnailService.generateThumbnailFromBuffer base uuid buffer o encode =
        Except.ok r →
      r.thumbnailPath = ThumbnailService.thumbnailDir ++ "/" ++
          (uuid ++ "." ++ ThumbnailService.extensionOf o) ∧
        ∃ q, r.thumbnailUrl = q ++ (uuid ++ "." ++ ThumbnailService.extensionOf o)) ∧
    ThumbnailService.extensionOf ⟨o.width, o.height, o.quality, none⟩ = "jpeg" ∧
    ThumbnailService.extensionOf
        ⟨o.width, o.height, o.quality, some ThumbnailService.ImgFormat.webp⟩ =
      "webp" ∧
    ∃ q, uuid ++ "." ++ ThumbnailService.extensionOf
          ⟨o.width, o.height, o.quality, some ThumbnailService.ImgFormat.webp⟩ =
        q ++ ".webp" := by
  have hdot : ("." ++ "webp" : String) = ".webp" := by decide
  refine ⟨?_, ?_, rfl, rfl, ⟨uuid, ?_⟩⟩
  · intro r h
    cases he : encode (ThumbnailService.sharpCallOf o) with
    | ok size =>
      simp only [ThumbnailService.generateThumbnailFromFile, he,
        Except.ok.injEq] at h
      rw [← h]
      exact ⟨rfl, base ++ "/thumbnails/", rfl⟩
    | error e =>
      simp [ThumbnailService.generateThumbnailFromFile, he] at h
  · intro buffer r h
    cases he : encode (ThumbnailService.sharpCallOf o) with
    | ok size =>
      simp only [ThumbnailService.generateThumbnailFromBuffer, he,
        Except.ok.injEq] at h
      rw [← h]
      exact ⟨rfl, base ++ "/thumbnails/", rfl⟩
    | error e =>
      simp [ThumbnailService.generateThumbnailFromBuffer, he] at h
  · show uuid ++ "." ++ "webp" = uuid ++ ".webp"
    rw [String.append_assoc, hdot]

/-- Witness for C9 at a concrete webp-override generation. -/
theorem c9_filename_format_witness :
    (ThumbnailService.generateThumbnailFromFile "http://localhost:5000" "u1"
        "in.png" ⟨200, 200, none, some ThumbnailService.ImgFormat.webp⟩
        (fun _ => Except.ok 7) =
      Except.ok ⟨"thumbnails/u1.webp",
        "http://localhost:5000/thumbnails/u1.webp", 7⟩) ∧
    ((⟨"thumbnails/u1.webp", "http://localhost:5000/thumbnails/u1.webp", 7⟩ :
        ThumbnailService.ThumbnailResult).thumbnailPath =
      ThumbnailService.thumbnailDir ++ "/" ++
        ("u1" ++ "." ++ ThumbnailService.extensionOf
          ⟨200, 200, none, some ThumbnailService.ImgFormat.webp⟩) ∧
      ∃ q, (⟨"thumbnails/u1.webp", "http://localhost:5000/thumbnails/u1.webp",
          7⟩ : ThumbnailService.ThumbnailResult).thumbnailUrl =
        q ++ ("u1" ++ "." ++ ThumbnailService.extensionOf
          ⟨200, 200, none, some ThumbnailService.ImgFormat.webp⟩)) :=
  ⟨rfl,
    (c9_filename_format (B := Unit) "http://localhost:5000" "u1" "in.png"
        ⟨200, 200, none, some ThumbnailService.ImgFormat.webp⟩
        (fun _ => Except.ok 7)).1
      ⟨"thumbnails/u1.webp", "http://localhost:5000/thumbnails/u1.webp", 7⟩
      rfl⟩

/-- C3: the temporary file of `generateThumbnailFromUrl` does not exist
after the call, on success and on failure at any step; the call fails
exactly when the download, the temp write or the delegated generation
fails, and every failure surfaces as the single wrapped descriptive
error. -/
theorem c3_temp_file_cleanup (env : ThumbnailService.UrlEnv)
    (fs : ThumbnailService.FS) (imageUrl tempId uuid : String)
    (options : ThumbnailService.ThumbnailOptions) :
    ThumbnailService.tempPathOf tempId ∉
      (ThumbnailService.generateThumbnailFromUrl env fs imageUrl tempId uuid
        options).2 ∧
    ((∃ e, (ThumbnailService.generateThumbnailFromUrl env fs imageUrl tempId
          uuid options).1 = Except.error e) ↔
      ¬((∃ u, env.fetch (ThumbnailService.resolveUrl env.baseUrl imageUrl) =
            Except.ok u) ∧
        env.writeOk = true ∧
        ∃ r, ThumbnailService.generateThumbnailFromFile env.baseUrl uuid
            (ThumbnailService.tempPathOf tempId) options env.encode =
          Except.ok r)) ∧
    ∀ e, (ThumbnailService.generateThumbnailFromUrl env fs imageUrl tempId uuid
        options).1 = Except.error e →
      ∃ m, e = "Thumbnail generation from URL failed: " ++ m := by
  cases hf : env.fetch (ThumbnailService.resolveUrl env.baseUrl imageUrl) with
  | error e0 =>
    refine ⟨?_, ?_, ?_⟩
    · simp only [ThumbnailService.generateThumbnailFromUrl, hf]
      exact ThumbnailService.notMem_unlinkQuiet fs _
    · simp [ThumbnailService.generateThumbnailFromUrl, hf,
        ThumbnailService.urlWrap]
    · intro e he
      simp only [ThumbnailService.generateThumbnailFromUrl, hf,
        Except.error.injEq] at he
      exact ⟨e0, he.symm⟩
  | ok u0 =>
    cases hw : env.writeOk with
    | false =>
      refine ⟨?_, ?_, ?_⟩
      · simp only [ThumbnailService.generateThumbnailFromUrl, hf, hw,
          Bool.false_eq_true, if_false]
        exact ThumbnailService.notMem_unlinkQuiet fs _
      · simp [ThumbnailService.generateThumbnailFromUrl, hf, hw,
          ThumbnailService.urlWrap]
      · intro e he
        simp only [ThumbnailService.generateThumbnailFromUrl, hf, hw,
          Bool.false_eq_true, if_false, Except.error.injEq] at he
        exact ⟨"write failed", he.symm⟩
    | true =>
      cases hg : ThumbnailService.generateThumbnailFromFile env.baseUrl uuid
          (ThumbnailService.tempPathOf tempId) options env.encode with
      | ok r0 =>
        refine ⟨?_, ?_, ?_⟩
        · simp only [ThumbnailService.generateThumbnailFromUrl, hf, hw,
            if_true, hg]
          exact ThumbnailService.notMem_unlinkQuiet _ _
        · simp [ThumbnailService.generateThumbnailFromUrl, hf, hw, hg]
        · intro e he
          simp [ThumbnailService.generateThumbnailFromUrl, hf, hw, hg] at he
      | error e0 =>
        refine ⟨?_, ?_, ?_⟩
        · simp only [ThumbnailService.generateThumbnailFromUrl, hf, hw,
            if_true, hg]
          exact ThumbnailService.notMem_unlinkQuiet _ _
        · simp [ThumbnailService.generateThumbnailFromUrl, hf, hw, hg,
            ThumbnailService.urlWrap]
        · intro e he
          simp only [ThumbnailService.generateThumbnailFromUrl, hf, hw,
            if_true, hg, Except.error.injEq] at he
          exact ⟨e0, he.symm⟩

/-- Witness for C3: a failing download leaves no temp file and rejects
with the wrapped error. -/
theorem c3_temp_file_cleanup_witness :
    ((ThumbnailService.generateThumbnailFromUrl
        ⟨"http://localhost:5000",
          fun _ => Except.error "Failed to fetch image: Not Found", true,
          fun _ => Except.ok 1⟩ [] "/objects/img.png" "t1" "u1"
        ⟨200, 200, none, none⟩).1 =
      Except.error
        "Thumbnail generation from URL failed: Failed to fetch image: Not Found") ∧
    ∃ m, ("Thumbnail generation from URL failed: Failed to fetch image: Not Found"
        : String) = "Thumbnail generation from URL failed: " ++ m :=
  ⟨rfl,
    (c3_temp_file_cleanup
        ⟨"http://localhost:5000",
          fun _ => Except.error "Failed to fetch image: Not Found", true,
          fun _ => Except.ok 1⟩ [] "/objects/img.png" "t1" "u1"
        ⟨200, 200, none, none⟩).2.2 _ rfl⟩

/-- C5: `generateMultipleThumbnails` with the default tiers (150x150
quality 60, 400x300 quality 80, 800x600 quality 85) joins three runs
of the same dispatched pipeline — the URL pipeline for a string source
starting with "http" or "/", the file pipeline for another string, the
buffer pipeline for a buffer — succeeding with the full
small/medium/large map exactly when every tier succeeds, and rejecting
whenever any one tier rejects. -/
theorem c5_multiple_thumbnails {B R E : Type}
    (fromUrl : String → ThumbnailService.ThumbnailOptions → Except E R)
    (fromFile : String → ThumbnailService.ThumbnailOptions → Except E R)
    (fromBuffer : B → ThumbnailService.ThumbnailOptions → Except E R)
    (source : Sum String B) :
    ((∃ m, ThumbnailService.generateMultipleThumbnails fromUrl fromFile
          fromBuffer source ThumbnailService.defaultSizes = Except.ok m) ↔
      ((∃ a, ThumbnailService.specDispatch fromUrl fromFile fromBuffer source
            ThumbnailService.defaultSizes.1 = Except.ok a) ∧
        (∃ a, ThumbnailService.specDispatch fromUrl fromFile fromBuffer source
            ThumbnailService.defaultSizes.2.1 = Except.ok a) ∧
        (∃ a, ThumbnailService.specDispatch fromUrl fromFile fromBuffer source
            ThumbnailService.defaultSizes.2.2 = Except.ok a))) ∧
    (∀ a m l,
      ThumbnailService.specDispatch fromUrl fromFile fromBuffer source
          ThumbnailService.defaultSizes.1 = Except.ok a →
      ThumbnailService.specDispatch fromUrl fromFile fromBuffer source
          ThumbnailService.defaultSizes.2.1 = Except.ok m →
      ThumbnailService.specDispatch fromUrl fromFile fromBuffer source
          ThumbnailService.defaultSizes.2.2 = Except.ok l →
      ThumbnailService.generateMultipleThumbnails fromUrl fromFile fromBuffer
          source ThumbnailService.defaultSizes =
        Except.ok ⟨some a, some m, some l⟩) ∧
    ThumbnailService.defaultSizes =
      (⟨150, 150, some 60, some ThumbnailService.ImgFormat.jpeg⟩,
        ⟨400, 300, some 80, some ThumbnailService.ImgFormat.jpeg⟩,
        ⟨800, 600, some 85, some ThumbnailService.ImgFormat.jpeg⟩) := by
  rw [ThumbnailService.generateMultiple_eq]
  refine ⟨?_, ?_, rfl⟩
  · cases h1 : ThumbnailService.specDispatch fromUrl fromFile fromBuffer source
        ThumbnailService.defaultSizes.1 with
    | error e => simp [h1, Bind.bind, Except.bind]
    | ok a =>
      cases h2 : ThumbnailService.specDispatch fromUrl fromFile fromBuffer
          source ThumbnailService.defaultSizes.2.1 with
      | error e => simp [h1, h2, Bind.bind, Except.bind]
      | ok m =>
        cases h3 : ThumbnailService.specDispatch fromUrl fromFile fromBuffer
            source ThumbnailService.defaultSizes.2.2 with
        | error e => simp [h1, h2, h3, Bind.bind, Except.bind]
        | ok l =>
          simp [h1, h2, h3, Bind.bind, Except.bind, Pure.pure, Except.pure]
  · intro a m l h1 h2 h3
    simp [h1, h2, h3, Bind.bind, Except.bind, Pure.pure, Except.pure]

/-- Witness for C5: a buffer source with all three tiers succeeding. -/
theorem c5_multiple_thumbnails_witness :
    ThumbnailService.generateMultipleThumbnails
        (fun _ o => (Except.ok o.width : Except Unit Nat))
        (fun _ o => Except.ok o.width) (fun (_ : Unit) o => Except.ok o.width)
        (Sum.inr ()) ThumbnailService.defaultSizes =
      Except.ok ⟨some 150, some 400, some 800⟩ :=
  (c5_multiple_thumbnails
      (fun _ o => (Except.ok o.width : Except Unit Nat))
      (fun _ o => Except.ok o.width) (fun (_ : Unit) o => Except.ok o.width)
      (Sum.inr ())).2.1 150 400 800 rfl rfl rfl

/-- C2: for an instance with both a thumbnail URL and a full URL, on
any trace without load failures in which the thumbnail's load completes
before the full image's load, every reachable state renders real
content (never a blank or failed frame), a rendered full image implies
the thumbnail had loaded (full-ready only after thumbnail-ready), and
each step moves the rendered view forward along skeleton, thumbnail,
full, never jumping from skeleton directly to the full image. -/
theorem c2_render_sequence (ld : Bool) (tr : List LazyImage.LIEvent)
    (hE : LazyImage.noErrorTrace tr = true)
    (hT : LazyImage.thumbBeforeFull tr = true) :
    ∀ (p rest : List LazyImage.LIEvent) (s : LazyImage.LIState),
      tr = p ++ rest →
      LazyImage.run ⟨true, ld⟩ p LazyImage.initState = some s →
      LazyImage.render ⟨true, ld⟩ s ≠ LazyImage.RenderView.blank ∧
      LazyImage.render ⟨true, ld⟩ s ≠ LazyImage.RenderView.failed ∧
      (LazyImage.render ⟨true, ld⟩ s = LazyImage.RenderView.fullImage →
        s.thumbnailLoaded = true) ∧
      ∀ (e : LazyImage.LIEvent) (rest' : List LazyImage.LIEvent)
          (s' : LazyImage.LIState), rest = e :: rest' →
        LazyImage.step ⟨true, ld⟩ s e = some s' →
        LazyImage.renderRank (LazyImage.render ⟨true, ld⟩ s) ≤
            LazyImage.renderRank (LazyImage.render ⟨true, ld⟩ s') ∧
        ¬(LazyImage.render ⟨true, ld⟩ s = LazyImage.RenderView.skeleton ∧
          LazyImage.render ⟨true, ld⟩ s' = LazyImage.RenderView.fullImage) := by
  intro p rest s htr hrun
  have hEp : LazyImage.noErrorTrace p = true := by
    rw [htr] at hE
    simp only [LazyImage.noErrorTrace, List.all_append, Bool.and_eq_true] at hE
    simp only [LazyImage.noErrorTrace]
    exact hE.1
  have hTp : LazyImage.thumbBeforeFullAux false p = true := by
    rw [htr] at hT
    exact LazyImage.thumbBeforeFullAux_append_left p rest false hT
  have hinv : LazyImage.invB s = true :=
    LazyImage.run_invB p ⟨true, ld⟩ LazyImage.initState s hEp (by decide) hrun
  have hfl : s.imageLoaded = true → s.thumbnailLoaded = true :=
    LazyImage.run_full_after_thumb p ⟨true, ld⟩ LazyImage.initState s
      (fun hx => absurd hx (by decide)) hTp hrun
  obtain ⟨hb, hf, hfull⟩ := LazyImage.render_classify ⟨true, ld⟩ s rfl hinv
  refine ⟨hb, hf, fun hr => hfl (hfull hr), ?_⟩
  intro e rest' s' hrest hstep
  have he : LazyImage.isErrorEvent e = false := by
    rw [htr, hrest] at hE
    simp only [LazyImage.noErrorTrace, List.all_append, List.all_cons,
      Bool.and_eq_true, Bool.not_eq_true'] at hE
    exact hE.2.1
  have hq := LazyImage.optAll_step
    (LazyImage.step_render_rank ⟨true, ld⟩ s e rfl hinv he) hstep
  constructor
  · have hq' := hq
    simp only [Bool.and_eq_true] at hq'
    exact Nat.le_of_ble_eq_true hq'.1
  · rintro ⟨e1, e2⟩
    rw [e1, e2] at hq
    simp at hq

/-- Witness for C2 on the trace intersect, thumbnail load, timer,
full load in immediate mode. -/
theorem c2_render_sequence_witness :
    (LazyImage.noErrorTrace [LazyImage.LIEvent.intersect,
        LazyImage.LIEvent.thumbnailLoad, LazyImage.LIEvent.fullLoadTimer,
        LazyImage.LIEvent.fullImageLoad] = true ∧
      LazyImage.thumbBeforeFull [LazyImage.LIEvent.intersect,
        LazyImage.LIEvent.thumbnailLoad, LazyImage.LIEvent.fullLoadTimer,
        LazyImage.LIEvent.fullImageLoad] = true ∧
      LazyImage.run ⟨true, true⟩ [LazyImage.LIEvent.intersect,
        LazyImage.LIEvent.thumbnailLoad, LazyImage.LIEvent.fullLoadTimer,
        LazyImage.LIEvent.fullImageLoad] LazyImage.initState =
        some ⟨true, true, true, false, true, false, false⟩) ∧
    LazyImage.render ⟨true, true⟩
        ⟨true, true, true, false, true, false, false⟩ =
      LazyImage.RenderView.fullImage ∧
    (⟨true, true, true, false, true, false, false⟩ :
        LazyImage.LIState).thumbnailLoaded = true :=
  ⟨⟨by decide, by decide, by decide⟩, by decide,
    (c2_render_sequence true [LazyImage.LIEvent.intersect,
        LazyImage.LIEvent.thumbnailLoad, LazyImage.LIEvent.fullLoadTimer,
        LazyImage.LIEvent.fullImageLoad] (by decide) (by decide)
      [LazyImage.LIEvent.intersect, LazyImage.LIEvent.thumbnailLoad,
        LazyImage.LIEvent.fullLoadTimer, LazyImage.LIEvent.fullImageLoad] []
      ⟨true, true, true, false, true, false, false⟩ (by simp)
      (by decide)).2.2.1 (by decide)⟩

/-- C4: viewport membership is one-shot and monotone: an intersection
event sets the in-view flag and detaches the observer (no further
intersection event can fire), scrolling back out of view leaves the
state unchanged, and from any in-view state every later reachable
state is still in view and never renders the skeleton again. -/
theorem c4_viewport_oneshot (c : LazyImage.LIConfig)
    (tr : List LazyImage.LIEvent) (s : LazyImage.LIState)
    (h : LazyImage.run c tr LazyImage.initState = some s) :
    (∀ s', LazyImage.step c s LazyImage.LIEvent.intersect = some s' →
      s'.imageInView = true ∧ s'.observing = false ∧
        LazyImage.step c s' LazyImage.LIEvent.intersect = none) ∧
    (∀ s', LazyImage.step c s LazyImage.LIEvent.leave = some s' → s' = s) ∧
    (s.imageInView = true →
      ∀ (tr' : List LazyImage.LIEvent) (s' : LazyImage.LIState),
        LazyImage.run c tr' s = some s' →
        s'.imageInView = true ∧
          LazyImage.render c s' ≠ LazyImage.RenderView.skeleton) := by
  refine ⟨?_, ?_, ?_⟩
  · intro s' hs
    have hq := LazyImage.optAll_step (LazyImage.intersect_oneshot_step c s) hs
    simp only [Bool.and_eq_true, beq_iff_eq] at hq
    exact ⟨hq.1.1, hq.1.2, Option.isNone_iff_eq_none.mp hq.2⟩
  · intro s' hs
    have hq := LazyImage.optAll_step (LazyImage.leave_noop_step c s) hs
    exact of_decide_eq_true hq
  · intro hv tr' s' hrun'
    have h1 : s'.imageInView = true :=
      LazyImage.run_inView_mono tr' c s s' hrun' hv
    exact ⟨h1, LazyImage.render_ne_skeleton_of_inView c s' h1⟩

/-- Witness for C4: after the intersection event, content stays and the
skeleton never returns on a subsequent thumbnail load. -/
theorem c4_viewport_oneshot_witness :
    (LazyImage.run ⟨true, true⟩ [LazyImage.LIEvent.intersect]
        LazyImage.initState =
        some ⟨true, false, false, false, false, false, false⟩ ∧
      (⟨true, false, false, false, false, false, false⟩ :
          LazyImage.LIState).imageInView = true ∧
      LazyImage.run ⟨true, true⟩ [LazyImage.LIEvent.thumbnailLoad]
        (⟨true, false, false, false, false, false, false⟩ :
          LazyImage.LIState) =
        some ⟨true, true, false, false, false, false, true⟩) ∧
    ((⟨true, true, false, false, false, false, true⟩ :
        LazyImage.LIState).imageInView = true ∧
      LazyImage.render ⟨true, true⟩
          ⟨true, true, false, false, false, false, true⟩ ≠
        LazyImage.RenderView.skeleton) :=
  ⟨⟨by decide, by decide, by decide⟩,
    (c4_viewport_oneshot ⟨true, true⟩ [LazyImage.LIEvent.intersect]
        ⟨true, false, false, false, false, false, false⟩ (by decide)).2.2
      (by decide) [LazyImage.LIEvent.thumbnailLoad]
      ⟨true, true, false, false, false, false, true⟩ (by decide)⟩
